import Mathlib

set_option maxRecDepth 8000

/-
Verification development for the Doris MCP server startup file
(doris_mcp_server/main.py): the operation dispatcher, the HTTP transport
bridge, configuration resolution, startup/shutdown, and the top-level run
policy, shallowly embedded in Lean.
-/

/-! ### JSON values and the serialization used by the handlers

`main.py` serializes its Error Envelopes with
`json.dumps(obj, ensure_ascii=False, indent=2)`.  `Json` models the Python
values involved (`None`, `bool`, `int`, `str`, `list`, `dict`), `jsonDumps`
models that exact call (two-space indentation, `", "`-free item separator
`",\n"`, key separator `": "`, non-ASCII characters kept verbatim, the usual
short escapes plus `\u00XX` for remaining control characters). -/

inductive Json where
  | null : Json
  | bool : Bool → Json
  | num : Int → Json
  | str : String → Json
  | arr : List Json → Json
  | obj : List (String × Json) → Json

def lbrace : Char := Char.ofNat 123

def rbrace : Char := Char.ofNat 125

def hexDigit (n : Nat) : Char :=
  if n < 10 then Char.ofNat (48 + n) else Char.ofNat (87 + n)

def jsonEscapeChar (c : Char) : String :=
  if c = '"' then "\\\""
  else if c = '\\' then "\\\\"
  else if c = '\n' then "\\n"
  else if c = '\t' then "\\t"
  else if c = '\r' then "\\r"
  else if c = Char.ofNat 8 then "\\b"
  else if c = Char.ofNat 12 then "\\f"
  else if c.toNat < 32 then
    "\\u00" ++ String.singleton (hexDigit (c.toNat / 16)) ++
      String.singleton (hexDigit (c.toNat % 16))
  else String.singleton c

def jsonEscape (s : String) : String :=
  String.join (s.toList.map jsonEscapeChar)

def jsonQuote (s : String) : String := "\"" ++ jsonEscape s ++ "\""

def indentStr (lvl : Nat) : String := String.mk (List.replicate (lvl * 2) ' ')

mutual

def dumpsVal (lvl : Nat) : Json → String
  | Json.null => "null"
  | Json.bool b => if b then "true" else "false"
  | Json.num n => toString n
  | Json.str s => jsonQuote s
  | Json.arr [] => "[]"
  | Json.arr (x :: xs) =>
      "[" ++ "\n" ++ indentStr (lvl + 1) ++
        String.intercalate ("," ++ "\n" ++ indentStr (lvl + 1))
          (dumpsList (lvl + 1) (x :: xs)) ++
        "\n" ++ indentStr lvl ++ "]"
  | Json.obj [] => String.singleton lbrace ++ String.singleton rbrace
  | Json.obj (kv :: kvs) =>
      String.singleton lbrace ++ "\n" ++ indentStr (lvl + 1) ++
        String.intercalate ("," ++ "\n" ++ indentStr (lvl + 1))
          (dumpsKvs (lvl + 1) (kv :: kvs)) ++
        "\n" ++ indentStr lvl ++ String.singleton rbrace

def dumpsList (lvl : Nat) : List Json → List String
  | [] => []
  | x :: xs => dumpsVal lvl x :: dumpsList lvl xs

def dumpsKvs (lvl : Nat) : List (String × Json) → List String
  | [] => []
  | (k, v) :: rest => (jsonQuote k ++ ": " ++ dumpsVal lvl v) :: dumpsKvs lvl rest

end

def jsonDumps (j : Json) : String := dumpsVal 0 j

/-- First-match lookup in the key/value list of a JSON object (Python dict
keys are unique, so first-match agrees with dict access). -/
def jsonObjLookup : List (String × Json) → String → Option Json
  | [], _ => none
  | (k, v) :: rest, key => if k = key then some v else jsonObjLookup rest key

def jsonLookup (j : Json) (key : String) : Option Json :=
  match j with
  | Json.obj kvs => jsonObjLookup kvs key
  | _ => none

/-! ### A total JSON reader

A fuel-bounded reader for the textual JSON format, used to state that a
serialized Error Envelope parses back to the intended object (Python callers
recover the envelope with `json.loads`). -/

def skipWs : List Char → List Char
  | [] => []
  | c :: cs =>
    if c = ' ' || c = '\n' || c = '\t' || c = '\r' then skipWs cs else c :: cs

def escChar (e : Char) : Option Char :=
  if e = '"' then some '"'
  else if e = '\\' then some '\\'
  else if e = '/' then some '/'
  else if e = 'n' then some '\n'
  else if e = 't' then some '\t'
  else if e = 'r' then some '\r'
  else if e = 'b' then some (Char.ofNat 8)
  else if e = 'f' then some (Char.ofNat 12)
  else none

def hexVal (c : Char) : Option Nat :=
  if c.isDigit then some (c.toNat - 48)
  else if 97 ≤ c.toNat && c.toNat ≤ 102 then some (c.toNat - 87)
  else if 65 ≤ c.toNat && c.toNat ≤ 70 then some (c.toNat - 55)
  else none

def readStrBody : Nat → List Char → Option (List Char × List Char)
  | 0, _ => none
  | _, [] => none
  | fuel + 1, c :: cs =>
    if c = '"' then some ([], cs)
    else if c = '\\' then
      match cs with
      | 'u' :: h1 :: h2 :: h3 :: h4 :: cs3 =>
        match hexVal h1, hexVal h2, hexVal h3, hexVal h4, readStrBody fuel cs3 with
        | some a, some b, some c2, some d, some (out, rest) =>
            some (Char.ofNat (((a * 16 + b) * 16 + c2) * 16 + d) :: out, rest)
        | _, _, _, _, _ => none
      | e :: cs2 =>
        match escChar e, readStrBody fuel cs2 with
        | some ec, some (out, rest) => some (ec :: out, rest)
        | _, _ => none
      | [] => none
    else
      match readStrBody fuel cs with
      | some (out, rest) => some (c :: out, rest)
      | none => none

def digitsToNat : List Char → Nat → Nat
  | [], acc => acc
  | c :: cs, acc => digitsToNat cs (acc * 10 + (c.toNat - 48))

mutual

def readVal : Nat → List Char → Option (Json × List Char)
  | 0, _ => none
  | fuel + 1, cs0 =>
    match skipWs cs0 with
    | [] => none
    | c :: rest =>
      if c = '"' then
        match readStrBody fuel rest with
        | some (out, r) => some (Json.str (String.mk out), r)
        | none => none
      else if c = lbrace then readObjRest fuel rest
      else if c = '[' then readArrRest fuel rest
      else if c = 'n' then
        match rest with
        | 'u' :: 'l' :: 'l' :: r => some (Json.null, r)
        | _ => none
      else if c = 't' then
        match rest with
        | 'r' :: 'u' :: 'e' :: r => some (Json.bool true, r)
        | _ => none
      else if c = 'f' then
        match rest with
        | 'a' :: 'l' :: 's' :: 'e' :: r => some (Json.bool false, r)
        | _ => none
      else if c = '-' then
        match rest with
        | d :: _ =>
          if d.isDigit then
            some (Json.num (-(Int.ofNat (digitsToNat (rest.takeWhile Char.isDigit) 0))),
              rest.dropWhile Char.isDigit)
          else none
        | [] => none
      else if c.isDigit then
        some (Json.num (Int.ofNat (digitsToNat ((c :: rest).takeWhile Char.isDigit) 0)),
          (c :: rest).dropWhile Char.isDigit)
      else none

def readObjRest : Nat → List Char → Option (Json × List Char)
  | 0, _ => none
  | fuel + 1, cs0 =>
    match skipWs cs0 with
    | [] => none
    | c :: rest =>
      if c = rbrace then some (Json.obj [], rest)
      else if c = '"' then
        match readStrBody fuel rest with
        | some (kout, r1) =>
          match skipWs r1 with
          | ':' :: r2 =>
            match readVal fuel r2 with
            | some (v, r3) =>
              match skipWs r3 with
              | c2 :: r4 =>
                if c2 = ',' then
                  match readObjRest fuel r4 with
                  | some (Json.obj kvs, r5) =>
                      some (Json.obj ((String.mk kout, v) :: kvs), r5)
                  | _ => none
                else if c2 = rbrace then some (Json.obj [(String.mk kout, v)], r4)
                else none
              | [] => none
            | none => none
          | _ => none
        | none => none
      else none

def readArrRest : Nat → List Char → Option (Json × List Char)
  | 0, _ => none
  | fuel + 1, cs0 =>
    match skipWs cs0 with
    | [] => none
    | c :: rest =>
      if c = ']' then some (Json.arr [], rest)
      else
        match readVal fuel (c :: rest) with
        | some (v, r1) =>
          match skipWs r1 with
          | c2 :: r2 =>
            if c2 = ',' then
              match readArrRest fuel r2 with
              | some (Json.arr xs, r3) => some (Json.arr (v :: xs), r3)
              | _ => none
            else if c2 = ']' then some (Json.arr [v], r2)
            else none
          | [] => none
        | none => none

end

def parseJson (s : String) : Option Json :=
  match readVal (s.toList.length * 2 + 8) s.toList with
  | some (v, rest) => if skipWs rest = [] then some v else none
  | none => none

/-! ### Operation dispatcher (`DorisServer._setup_handlers`, main.py lines 78-174)

Each handler delegates to one collaborator call inside a `try` block.  The
collaborator outcome is modelled as `Except String α`: `Except.error e`
stands for a raised exception whose `str(e)` is `e`.  A handler returning a
plain value (not an `Except`) embeds the fact that the `except Exception`
clause catches every collaborator exception. -/

structure TextContent where
  type : String
  text : String
deriving DecidableEq

/-- Lines 81-91: `handle_list_resources` returns the manager's list, or `[]`
when the manager raised. -/
def handle_list_resources (α : Type) (res : Except String (List α)) : List α :=
  match res with
  | Except.ok rs => rs
  | Except.error _ => []

/-- Lines 93-106: `handle_read_resource` returns the content, or the
serialized `error`/`uri` envelope when the manager raised. -/
def handle_read_resource (uri : String) (res : Except String String) : String :=
  match res with
  | Except.ok content => content
  | Except.error e =>
      jsonDumps (Json.obj
        [("error", Json.str ("Failed to read resource: " ++ e)),
         ("uri", Json.str uri)])

/-- Lines 108-118: `handle_list_tools` returns the manager's list, or `[]`
when the manager raised. -/
def handle_list_tools (α : Type) (res : Except String (List α)) : List α :=
  match res with
  | Except.ok ts => ts
  | Except.error _ => []

/-- Lines 120-142: `handle_call_tool` wraps the result in one text content
item; when the manager raised it serializes the
`error`/`tool_name`/`arguments` envelope into one text content item. -/
def handle_call_tool (name : String) (arguments : Json)
    (res : Except String String) : List TextContent :=
  match res with
  | Except.ok result => [TextContent.mk "text" result]
  | Except.error e =>
      [TextContent.mk "text" (jsonDumps (Json.obj
        [("error", Json.str ("Tool call failed: " ++ e)),
         ("tool_name", Json.str name),
         ("arguments", arguments)]))]

/-- Lines 144-154: `handle_list_prompts` returns the manager's list, or `[]`
when the manager raised. -/
def handle_list_prompts (α : Type) (res : Except String (List α)) : List α :=
  match res with
  | Except.ok ps => ps
  | Except.error _ => []

/-- Lines 156-174: `handle_get_prompt` returns the prompt text, or the
serialized `error`/`prompt_name`/`arguments` envelope when the manager
raised. -/
def handle_get_prompt (name : String) (arguments : Json)
    (res : Except String String) : String :=
  match res with
  | Except.ok result => result
  | Except.error e =>
      jsonDumps (Json.obj
        [("error", Json.str ("Failed to get prompt: " ++ e)),
         ("prompt_name", Json.str name),
         ("arguments", arguments)])

/-- The concrete envelope of the spec's `call_tool` example:
tool `"x"`, arguments `\x7b"a": 1\x7d`, collaborator error `"boom"`. -/
def boomEnvelope : Json :=
  Json.obj [("error", Json.str "Tool call failed: boom"),
    ("tool_name", Json.str "x"),
    ("arguments", Json.obj [("a", Json.num 1)])]

/-! ### HTTP transport bridge (`mcp_app` in `start_http`, lines 294-361)

A request carries the ASGI scope fields the bridge looks at: `method`,
`path`, and the raw header pair list.  Header values are modelled as the
UTF-8 decoded strings of the byte values in the scope. -/

structure Request where
  method : String
  path : String
  headers : List (String × String)
deriving DecidableEq

structure HttpResponse where
  status : Nat
  body : String
deriving DecidableEq

/-- `dict(scope.get("headers", []))[key]` with default `""`: a Python dict
built from a pair list keeps the last value bound to each key. -/
def headersGet : List (String × String) → String → Option String
  | [], _ => none
  | p :: rest, key =>
    match headersGet rest key with
    | some v => some v
    | none => if p.1 = key then some p.2 else none

def headersGetD (hs : List (String × String)) (key : String) : String :=
  (headersGet hs key).getD ""

/-- Python's `needle in hay` on strings: `needle` occurs as a contiguous
substring of `hay`. -/
def strContains (hay needle : String) : Bool :=
  (List.range (hay.toList.length + 1)).any
    (fun i => decide (needle.toList <+: List.drop i hay.toList))

/-- Python's `s.startswith(p)`. -/
def startsWithStr (s p : String) : Bool := decide (p.toList <+: s.toList)

/-- Line 329: the Dify-compatibility test on the effective `accept` value. -/
def needsAcceptRewrite (hs : List (String × String)) : Bool :=
  strContains (headersGetD hs "accept") "text/event-stream" &&
    !strContains (headersGetD hs "accept") "application/json"

/-- Lines 333-339: one step of the header-rebuild loop. -/
def rewriteAcceptEntry (p : String × String) : String × String :=
  if p.1 = "accept" then (p.1, p.2 ++ ", application/json") else p

/-- Lines 329-342: when the compatibility test fires, every `accept` entry of
the forwarded header list gains `", application/json"`; otherwise the scope
is left untouched. -/
def acceptRewrite (hs : List (String × String)) : List (String × String) :=
  if needsAcceptRewrite hs then hs.map rewriteAcceptEntry else hs

/-- Lines 322-343: the GET-only guard around the rewrite. -/
def applyGetCompat (req : Request) : Request :=
  if req.method = "GET" then
    Request.mk req.method req.path (acceptRewrite req.headers)
  else req

/-- Lines 306-351: the body of the `try` block of `mcp_app` — classify the
path, forward `/mcp` requests (after the GET compatibility rewrite) to the
session manager, answer 404 elsewhere.  The two collaborators (the Starlette
health app and `session_manager.handle_request`) may raise, so they return
`Except`. -/
def routeRequest (health sess : Request → Except String HttpResponse)
    (req : Request) : Except String HttpResponse :=
  if startsWithStr req.path "/health" = true then health req
  else if req.path = "/mcp" ∨ startsWithStr req.path "/mcp/" = true then
    sess (applyGetCompat req)
  else Except.ok (HttpResponse.mk 404 "Not Found")

/-- Lines 306-357: `mcp_app` wraps the routing in `try/except`, answering 500
to the same request whenever the handling raised. -/
def mcp_app (health sess : Request → Except String HttpResponse)
    (req : Request) : HttpResponse :=
  match routeRequest health sess req with
  | Except.ok r => r
  | Except.error _ => HttpResponse.mk 500 "Internal Server Error"

/-! ### HTTP startup sequence (`start_http`, lines 244-388) -/

inductive HttpEv where
  | initCall
  | sessionRunEnter
  | serveCall
  | sessionRunExit
deriving DecidableEq

/-- `start_http` as the sequence of awaited collaborator effects plus its
outcome.  `initRes` is the outcome of `connection_manager.initialize()`
(line 250), `serveRes` the outcome of `server.serve()` inside
`session_manager.run()` (lines 373-375).  A raised exception is logged and
re-raised (line 388), so it becomes the `Except.error` outcome. -/
def start_http (initRes serveRes : Except String Unit) :
    List HttpEv × Except String Unit :=
  match initRes with
  | Except.error e => ([HttpEv.initCall], Except.error e)
  | Except.ok _ =>
    match serveRes with
    | Except.ok _ =>
        ([HttpEv.initCall, HttpEv.sessionRunEnter, HttpEv.serveCall,
          HttpEv.sessionRunExit], Except.ok ())
    | Except.error e =>
        ([HttpEv.initCall, HttpEv.sessionRunEnter, HttpEv.serveCall,
          HttpEv.sessionRunExit], Except.error e)

/-- Lines 390-397: `shutdown` awaits `connection_manager.close()` inside
`try`, logging any exception; it never re-raises. -/
def shutdown (closeRes : Except String Unit) : Except String Unit :=
  match closeRes with
  | Except.ok _ => Except.ok ()
  | Except.error _ => Except.ok ()

/-! ### Configuration resolution (`create_arg_parser` lines 400-467 and
`main` lines 470-493) -/

/-- Lines 416-465: each argparse option's effective value — the command-line
value when given, else the argparse default `os.getenv(VAR, builtin)`. -/
def argValue {α : Type} (cli env : Option α) (dflt : α) : α :=
  cli.getD (env.getD dflt)

/-- Modelled from the spec: `DorisConfig.from_env` (utils/config.py, not part
of this source tree) loads each setting from the environment / persisted
configuration, falling back to the built-in default — the spec's
"environment/persisted value ... absent both, the built-in default". -/
def fromEnvValue {α : Type} (env : Option α) (dflt : α) : α := env.getD dflt

/-- Lines 482-493: the command-line value overrides the `from_env`
configuration only when it differs from the built-in default. -/
def resolveSetting {α : Type} [DecidableEq α] (cli env : Option α)
    (dflt : α) : α :=
  if argValue cli env dflt ≠ dflt then argValue cli env dflt
  else fromEnvValue env dflt

/-- Lines 450 and 488-489: `--db-password` has argparse default `""` (no
environment fallback there) and overrides only when non-empty (Python
truthiness). -/
def resolvePassword (cli env : Option String) (dflt : String) : String :=
  if cli.getD "" ≠ "" then cli.getD "" else fromEnvValue env dflt

/-! ### Top-level run policy (`main`, lines 498-531) -/

inductive RunOutcome where
  | normal
  | interrupted
  | failed : String → RunOutcome
deriving DecidableEq

inductive MainEv where
  | startStdio
  | startHttp
  | shutdownCall
deriving DecidableEq

/-- Lines 498-525: the transport selection under `try`, the
`KeyboardInterrupt` and `Exception` arms, the `finally` cleanup, and the
returned exit code (which `main_sync` passes to `exit`).  `outcome` is how
the selected `start_*` call ends.  `shutdownCall` records each `await
server.shutdown()`; the `finally` arm runs on every path, including the
`return 1` paths. -/
def mainRun (transport : String) (outcome : RunOutcome) : List MainEv × Nat :=
  if transport = "stdio" then
    match outcome with
    | RunOutcome.normal => ([MainEv.startStdio, MainEv.shutdownCall], 0)
    | RunOutcome.interrupted => ([MainEv.startStdio, MainEv.shutdownCall], 0)
    | RunOutcome.failed _ =>
        ([MainEv.startStdio, MainEv.shutdownCall, MainEv.shutdownCall], 1)
  else if transport = "http" then
    match outcome with
    | RunOutcome.normal => ([MainEv.startHttp, MainEv.shutdownCall], 0)
    | RunOutcome.interrupted => ([MainEv.startHttp, MainEv.shutdownCall], 0)
    | RunOutcome.failed _ =>
        ([MainEv.startHttp, MainEv.shutdownCall, MainEv.shutdownCall], 1)
  else
    ([MainEv.shutdownCall, MainEv.shutdownCall], 1)

/-! ### Concrete inputs used by witnesses -/

def healthOkHandler : Request → Except String HttpResponse :=
  fun _ => Except.ok (HttpResponse.mk 200 "healthy")

def sessOkHandler : Request → Except String HttpResponse :=
  fun _ => Except.ok (HttpResponse.mk 200 "session")

def sessFailHandler : Request → Except String HttpResponse :=
  fun _ => Except.error "boom"

def reqEx : Request :=
  Request.mk "GET" "/mcp" [("accept", "text/event-stream"), ("host", "example")]

def hsEx : List (String × String) :=
  [("accept", "text/event-stream"), ("host", "example")]

/-! ### Helper lemmas -/

theorem toList_append (a b : String) : (a ++ b).toList = a.toList ++ b.toList := rfl

theorem strContains_iff (hay needle : String) :
    strContains hay needle = true ↔
      ∃ i, i < hay.toList.length + 1 ∧ needle.toList <+: List.drop i hay.toList := by
  simp [strContains, List.any_eq_true, List.mem_range]

theorem strContains_append_left (a b needle : String)
    (h : strContains a needle = true) : strContains (a ++ b) needle = true := by
  rw [strContains_iff] at h ⊢
  obtain ⟨i, hi, hp⟩ := h
  refine ⟨i, ?_, ?_⟩
  · rw [toList_append, List.length_append]
    omega
  · rw [toList_append, List.drop_append_of_le_length (by omega)]
    exact hp.trans (List.prefix_append _ _)

theorem strContains_append_right (a b needle : String)
    (h : strContains b needle = true) : strContains (a ++ b) needle = true := by
  rw [strContains_iff] at h ⊢
  obtain ⟨i, hi, hp⟩ := h
  refine ⟨a.toList.length + i, ?_, ?_⟩
  · rw [toList_append, List.length_append]
    omega
  · rw [toList_append, List.drop_append]
    exact hp

theorem headersGet_map_rewrite (hs : List (String × String)) :
    headersGet (hs.map rewriteAcceptEntry) "accept" =
      (headersGet hs "accept").map (fun v => v ++ ", application/json") := by
  induction hs with
  | nil => rfl
  | cons p rest ih =>
    obtain ⟨k, v⟩ := p
    simp only [List.map_cons, headersGet, ih]
    cases hrest : headersGet rest "accept" with
    | some w => simp
    | none =>
      by_cases hk : k = "accept"
      · subst hk
        simp [rewriteAcceptEntry]
      · simp [rewriteAcceptEntry, hk]

theorem mcp_path_not_health (pa : String)
    (h : pa = "/mcp" ∨ startsWithStr pa "/mcp/" = true) :
    startsWithStr pa "/health" = false := by
  cases h with
  | inl h => subst h; decide
  | inr h =>
    simp only [startsWithStr, decide_eq_true_eq] at h
    simp only [startsWithStr, decide_eq_false_iff_not]
    intro hh
    rcases List.prefix_or_prefix_of_prefix h hh with hpq | hqp
    · exact absurd hpq (by decide)
    · exact absurd hqp (by decide)

/-! ### Claim theorems -/

/-- Claim C1: for each of the six operation handlers and every exception the
invoked collaborator raises, the handler does not propagate it: the three
list handlers return the empty list, and the three point handlers return a
serialized Error Envelope with an `error` field plus, respectively, `uri`
(read_resource), `tool_name` and `arguments` (call_tool), `prompt_name` and
`arguments` (get_prompt). -/
theorem c1_dispatcher_error_policy (α β γ : Type) (e uri tn pn : String)
    (ta pa : Json) :
    handle_list_resources α (Except.error e) = [] ∧
    handle_list_tools β (Except.error e) = [] ∧
    handle_list_prompts γ (Except.error e) = [] ∧
    (∃ o, handle_read_resource uri (Except.error e) = jsonDumps o ∧
      (jsonLookup o "error").isSome = true ∧
      jsonLookup o "uri" = some (Json.str uri)) ∧
    (∃ o, handle_call_tool tn ta (Except.error e) =
        [TextContent.mk "text" (jsonDumps o)] ∧
      (jsonLookup o "error").isSome = true ∧
      jsonLookup o "tool_name" = some (Json.str tn) ∧
      jsonLookup o "arguments" = some ta) ∧
    (∃ o, handle_get_prompt pn pa (Except.error e) = jsonDumps o ∧
      (jsonLookup o "error").isSome = true ∧
      jsonLookup o "prompt_name" = some (Json.str pn) ∧
      jsonLookup o "arguments" = some pa) := by
  refine ⟨rfl, rfl, rfl, ⟨_, rfl, ?_, ?_⟩, ⟨_, rfl, ?_, ?_, ?_⟩,
    ⟨_, rfl, ?_, ?_, ?_⟩⟩ <;> rfl

/-- Claim C2: when the tools manager's `call_tool` raises an exception with
message `m` for tool `n` and arguments `a`, the handler returns exactly one
text content item whose text is the `json.dumps` serialization of the object
with `error` = "Tool call failed: " ++ m, `tool_name` = n, `arguments` = a;
on the spec's concrete example (tool "x", arguments with "a" bound to 1,
error "boom") that text parses back to exactly that object. -/
theorem c2_call_tool_error_envelope (m n : String) (a : Json) :
    handle_call_tool n a (Except.error m) =
      [TextContent.mk "text" (jsonDumps (Json.obj
        [("error", Json.str ("Tool call failed: " ++ m)),
         ("tool_name", Json.str n),
         ("arguments", a)]))] ∧
    parseJson (jsonDumps boomEnvelope) = some boomEnvelope :=
  ⟨rfl, by rfl⟩

/-- Claim C4: in `start_http`, `initialize()` is awaited exactly once and
first — before the session manager's run scope is entered and before
`server.serve()` runs; if `initialize()` raises, neither happens and the
failure propagates out of `start_http`. -/
theorem c4_http_init_first (ir sr : Except String Unit) :
    (start_http ir sr).1.count HttpEv.initCall = 1 ∧
    (start_http ir sr).1.head? = some HttpEv.initCall ∧
    (∀ e, ir = Except.error e →
      HttpEv.serveCall ∉ (start_http ir sr).1 ∧
      HttpEv.sessionRunEnter ∉ (start_http ir sr).1 ∧
      (start_http ir sr).2 = Except.error e) := by
  cases ir with
  | ok u =>
    cases sr <;>
      exact ⟨rfl, rfl, fun e he => absurd he (by simp)⟩
  | error a =>
    refine ⟨rfl, rfl, fun e he => ?_⟩
    cases he
    refine ⟨?_, ?_, rfl⟩ <;> · intro hmem; simp [start_http] at hmem

/-- Claim C4 witness: with a failing `initialize()` and a collaborator that
would serve fine, the listener is never started. -/
theorem c4_http_init_first_witness :
    HttpEv.serveCall ∉ (start_http (Except.error "down") (Except.ok ())).1 :=
  ((c4_http_init_first (Except.error "down") (Except.ok ())).2.2 "down" rfl).1

/-- Claim C6: `shutdown` never propagates an exception — whatever
`connection_manager.close()` does on each of two successive calls, both
calls finish without error. -/
theorem c6_shutdown_idempotent (r1 r2 : Except String Unit) :
    shutdown r1 = Except.ok () ∧ shutdown r2 = Except.ok () := by
  cases r1 <;> cases r2 <;> exact ⟨rfl, rfl⟩

/-- Claim C3: for a GET request to the MCP endpoint whose Accept header
names `text/event-stream` but not `application/json`, the header list
actually forwarded to the session multiplexer (the one inside
`applyGetCompat req`, which `routeRequest` hands to the session manager) has
an Accept value naming both; when the Accept header already names both, the
request is forwarded unmodified. -/
theorem c3_accept_rewrite (req : Request) (hm : req.method = "GET")
    (hts : strContains (headersGetD req.headers "accept") "text/event-stream" = true) :
    (strContains (headersGetD req.headers "accept") "application/json" = false →
      strContains (headersGetD (applyGetCompat req).headers "accept")
          "text/event-stream" = true ∧
      strContains (headersGetD (applyGetCompat req).headers "accept")
          "application/json" = true) ∧
    (strContains (headersGetD req.headers "accept") "application/json" = true →
      applyGetCompat req = req) := by
  obtain ⟨m, pa, hdrs⟩ := req
  simp only at hm hts
  subst hm
  constructor
  · intro hnj
    have hcond : needsAcceptRewrite hdrs = true := by
      simp [needsAcceptRewrite, hts, hnj]
    have happ : (applyGetCompat (Request.mk "GET" pa hdrs)).headers =
        hdrs.map rewriteAcceptEntry := by
      simp [applyGetCompat, acceptRewrite, hcond]
    cases hv : headersGet hdrs "accept" with
    | none =>
      exfalso
      have hempty : headersGetD hdrs "accept" = "" := by simp [headersGetD, hv]
      rw [hempty] at hts
      exact absurd hts (by decide)
    | some v =>
      have hvd : headersGetD hdrs "accept" = v := by simp [headersGetD, hv]
      have hfw : headersGetD (applyGetCompat (Request.mk "GET" pa hdrs)).headers
          "accept" = v ++ ", application/json" := by
        rw [happ, headersGetD, headersGet_map_rewrite, hv]
        rfl
      rw [hfw]
      exact ⟨strContains_append_left v ", application/json" "text/event-stream"
          (hvd ▸ hts),
        strContains_append_right v ", application/json" "application/json"
          (by decide)⟩
  · intro hj
    have hcond : needsAcceptRewrite hdrs = false := by
      simp [needsAcceptRewrite, hj]
    simp [applyGetCompat, acceptRewrite, hcond]

/-- Claim C3 witness: a GET /mcp request with Accept naming only
`text/event-stream` is forwarded with an Accept value that also names
`application/json`, and one whose Accept names both is forwarded
unmodified. -/
theorem c3_accept_rewrite_witness :
    strContains (headersGetD (applyGetCompat reqEx).headers "accept")
        "application/json" = true ∧
    applyGetCompat (Request.mk "GET" "/mcp"
        [("accept", "text/event-stream, application/json")]) =
      Request.mk "GET" "/mcp"
        [("accept", "text/event-stream, application/json")] :=
  ⟨((c3_accept_rewrite reqEx rfl (by decide)).1 (by decide)).2,
    (c3_accept_rewrite (Request.mk "GET" "/mcp"
        [("accept", "text/event-stream, application/json")]) rfl
      (by decide)).2 (by decide)⟩

/-- Claim C10: when the compatibility rewrite applies, the forwarded header
list has the same length as the original, and entry by entry it agrees with
the original except that each `accept` entry's value is exactly the original
value followed by `", application/json"`. -/
theorem c10_rewrite_frame (hs : List (String × String))
    (hc : needsAcceptRewrite hs = true) :
    (acceptRewrite hs).length = hs.length ∧
    ∀ i : Nat, (acceptRewrite hs)[i]? =
      (hs[i]?).map (fun p =>
        if p.1 = "accept" then (p.1, p.2 ++ ", application/json") else p) := by
  have h : acceptRewrite hs = hs.map rewriteAcceptEntry := by
    simp [acceptRewrite, hc]
  rw [h]
  exact ⟨by simp, fun i => by rw [List.getElem?_map]; rfl⟩

/-- Claim C10 witness: on a two-entry header list the rewrite keeps the
length and maps the first (accept) entry as described. -/
theorem c10_rewrite_frame_witness :
    (acceptRewrite hsEx).length = hsEx.length ∧
    (acceptRewrite hsEx)[0]? =
      (hsEx[0]?).map (fun p =>
        if p.1 = "accept" then (p.1, p.2 ++ ", application/json") else p) :=
  ⟨(c10_rewrite_frame hsEx (by decide)).1,
    (c10_rewrite_frame hsEx (by decide)).2 0⟩

/-- Claim C7: for a request on `/mcp` or `/mcp/*`, any exception raised
while handling the forwarded request makes the bridge answer that request
with status 500 and body "Internal Server Error" — the exception is rendered
rather than escaping. -/
theorem c7_mcp_error_500 (health sess : Request → Except String HttpResponse)
    (req : Request) (e : String)
    (hp : req.path = "/mcp" ∨ startsWithStr req.path "/mcp/" = true)
    (he : sess (applyGetCompat req) = Except.error e) :
    mcp_app health sess req = HttpResponse.mk 500 "Internal Server Error" := by
  have hnh := mcp_path_not_health req.path hp
  simp only [mcp_app, routeRequest, hnh]
  rw [if_neg (by simp), if_pos hp, he]

/-- Claim C7 witness: a POST /mcp request whose session handling raises is
answered 500 "Internal Server Error". -/
theorem c7_mcp_error_500_witness :
    mcp_app healthOkHandler sessFailHandler (Request.mk "POST" "/mcp" []) =
      HttpResponse.mk 500 "Internal Server Error" :=
  c7_mcp_error_500 healthOkHandler sessFailHandler
    (Request.mk "POST" "/mcp" []) "boom" (Or.inl rfl) rfl

/-- Claim C8: a request whose path neither starts with `/health` nor is
`/mcp` nor starts with `/mcp/` is answered 404 "Not Found". -/
theorem c8_unknown_path_404 (health sess : Request → Except String HttpResponse)
    (req : Request)
    (h1 : startsWithStr req.path "/health" = false)
    (h2 : req.path ≠ "/mcp")
    (h3 : startsWithStr req.path "/mcp/" = false) :
    mcp_app health sess req = HttpResponse.mk 404 "Not Found" := by
  simp only [mcp_app, routeRequest, h1, h3]
  rw [if_neg (by simp), if_neg (by simp [h2])]

/-- Claim C8 witness: `/nope` is answered 404 "Not Found". -/
theorem c8_unknown_path_404_witness :
    mcp_app healthOkHandler sessOkHandler (Request.mk "GET" "/nope" []) =
      HttpResponse.mk 404 "Not Found" :=
  c8_unknown_path_404 healthOkHandler sessOkHandler
    (Request.mk "GET" "/nope" []) (by decide) (by decide) (by decide)

/-- Claim C5 counterexample: with built-in default "localhost", environment
value "remote", and the value "localhost" supplied on the command line, the
resolved setting is "remote" — the command-line value does not determine the
setting, refuting the claimed unconditional command-line precedence. -/
theorem c5_precedence_counterexample :
    resolveSetting (some "localhost") (some "remote") "localhost" = "remote" ∧
    resolveSetting (some "localhost") (some "remote") "localhost" ≠ "localhost" := by
  exact ⟨by decide, by decide⟩

/-- Claim C5 as amended: a command-line value that differs from the built-in
default determines the setting; a command-line value equal to the built-in
default is indistinguishable from an absent one, and then (as when no
command-line value is given) the environment/persisted value — or, absent
that, the built-in default — determines the setting.  For `db-password` the
command-line value must be non-empty instead of different from the
default. -/
theorem c5_amended_precedence {α : Type} [DecidableEq α]
    (cli env : Option α) (d c : α) (penv : Option String) (pd p : String) :
    (cli = some c → c ≠ d → resolveSetting cli env d = c) ∧
    (resolveSetting none env d = fromEnvValue env d) ∧
    (resolveSetting (some d) env d = fromEnvValue env d) ∧
    (p ≠ "" → resolvePassword (some p) penv pd = p) ∧
    (resolvePassword none penv pd = fromEnvValue penv pd) ∧
    (resolvePassword (some "") penv pd = fromEnvValue penv pd) := by
  refine ⟨?_, ?_, ?_, ?_, ?_, ?_⟩
  · intro hc hne
    subst hc
    simp only [resolveSetting, argValue, Option.getD_some]
    rw [if_pos hne]
  · simp [resolveSetting, argValue, fromEnvValue]
  · simp [resolveSetting, argValue, fromEnvValue]
  · intro hp
    simp only [resolvePassword, Option.getD_some]
    rw [if_pos hp]
  · simp [resolvePassword, fromEnvValue]
  · simp [resolvePassword, fromEnvValue]

/-- Claim C5 (amended) witness: a command-line host differing from the
default wins over the environment, and a non-empty command-line password
wins over the environment. -/
theorem c5_amended_precedence_witness :
    resolveSetting (some "cliHost") (some "envHost") "localhost" = "cliHost" ∧
    resolvePassword (some "pw") (some "envPw") "" = "pw" :=
  ⟨(c5_amended_precedence (some "cliHost") (some "envHost") "localhost"
      "cliHost" none "" "").1 rfl (by decide),
    (c5_amended_precedence (none : Option String) none "" ""
      (some "envPw") "" "pw").2.2.2.1 (by decide)⟩

/-- Claim C9: `main` resolves to exit code 0 when the selected transport's
`start` completes normally or is interrupted by the keyboard, and to 1 when
the transport is unsupported or any other exception escapes `start`; in the
interrupt, unsupported-transport, and error cases a `shutdown()` call is in
the event sequence before the exit code is returned. -/
theorem c9_exit_codes (t : String) (oc : RunOutcome) :
    ((t = "stdio" ∨ t = "http") →
      (oc = RunOutcome.normal ∨ oc = RunOutcome.interrupted) →
      (mainRun t oc).2 = 0) ∧
    (t ≠ "stdio" → t ≠ "http" →
      (mainRun t oc).2 = 1 ∧ MainEv.shutdownCall ∈ (mainRun t oc).1) ∧
    (∀ m, oc = RunOutcome.failed m →
      (mainRun t oc).2 = 1 ∧ MainEv.shutdownCall ∈ (mainRun t oc).1) ∧
    ((t = "stdio" ∨ t = "http") → oc = RunOutcome.interrupted →
      MainEv.shutdownCall ∈ (mainRun t oc).1) := by
  refine ⟨?_, ?_, ?_, ?_⟩
  · rintro (rfl | rfl) (rfl | rfl) <;> rfl
  · intro h1 h2
    rw [mainRun.eq_def, if_neg h1, if_neg h2]
    exact ⟨rfl, by simp⟩
  · rintro m rfl
    by_cases h1 : t = "stdio"
    · subst h1
      exact ⟨rfl, by simp [mainRun]⟩
    · by_cases h2 : t = "http"
      · subst h2
        exact ⟨rfl, by simp [mainRun]⟩
      · rw [mainRun.eq_def, if_neg h1, if_neg h2]
        exact ⟨rfl, by simp⟩
  · rintro (rfl | rfl) rfl <;> simp [mainRun]

/-- Claim C9 witness: an unsupported transport yields exit code 1 after a
shutdown call. -/
theorem c9_exit_codes_witness :
    (mainRun "tcp" RunOutcome.normal).2 = 1 ∧
    MainEv.shutdownCall ∈ (mainRun "tcp" RunOutcome.normal).1 :=
  (c9_exit_codes "tcp" RunOutcome.normal).2.1 (by decide) (by decide)
